import Mathlib

/-!
Shallow embedding of the AEGIS "war simulator" front-end
(`App.tsx` selection logic, `HoloGlobe.tsx` render/physics loop, and the
`geminiService` procedural fallback generator), with theorems checking the
specification's claims against it.

Conventions: JS numbers are modelled by `ℚ` (all the operations the claims
touch are exact on the inputs considered); JS 32-bit integer operations
(`Math.imul`, `| 0`) are modelled on `ℤ` with explicit wrapping mod `2^32`;
nullable values become `Option`; the per-frame mutable refs become explicit
state records threaded through step functions.
-/

/-- A country feature as the selection logic uses it: the code compares
features only through `.id` and prints `.properties.name`. -/
structure CountryFeature where
  id : Nat
  name : String
deriving DecidableEq, Repr

/-- `WarState` from `types.ts`: at most one aggressor, at most one defender,
and the defender's ally list. -/
structure WarState where
  aggressor : Option CountryFeature
  defender : Option CountryFeature
  defenderAllies : List CountryFeature
deriving DecidableEq, Repr

/-- The initial state `{ aggressor: null, defender: null, defenderAllies: [] }`. -/
def initialWarState : WarState :=
  { aggressor := none, defender := none, defenderAllies := [] }

/-- `prev.aggressor?.id === country.id` style test on an optional slot. -/
def hasId (o : Option CountryFeature) (i : Nat) : Bool :=
  match o with
  | some x => x.id == i
  | none => false

/-- `prev.defenderAllies.some(a => a.id === country.id)`. -/
def alliesHas (l : List CountryFeature) (i : Nat) : Bool :=
  l.any (fun a => a.id == i)

/-- `handleCountrySelect` from `App.tsx` (lines 29-81), as a pure transition on
`(WarState, isSelectingAlly)`.  The returned `Bool` is the new value of the
`isSelectingAlly` flag (`setIsSelectingAlly(false)` is called only on a
successful ally selection). -/
def handleCountrySelect (isSelectingAlly : Bool) (prev : WarState)
    (country : CountryFeature) : WarState × Bool :=
  if isSelectingAlly then
    -- 1. Ally Selection Mode: prevent selecting self or already selected
    if hasId prev.aggressor country.id || hasId prev.defender country.id ||
        alliesHas prev.defenderAllies country.id then
      (prev, isSelectingAlly)
    else
      ({ prev with defenderAllies := prev.defenderAllies ++ [country] }, false)
  else
    -- 2. Standard Selection Logic
    if hasId prev.aggressor country.id then
      ({ prev with aggressor := none }, isSelectingAlly)
    else if hasId prev.defender country.id then
      ({ prev with defender := none, defenderAllies := [] }, isSelectingAlly)
    else if alliesHas prev.defenderAllies country.id then
      ({ prev with
          defenderAllies := prev.defenderAllies.filter (fun a => a.id != country.id) },
        isSelectingAlly)
    else if prev.aggressor.isNone then
      ({ prev with aggressor := some country }, isSelectingAlly)
    else if prev.defender.isNone then
      ({ prev with defender := some country }, isSelectingAlly)
    else
      ({ aggressor := some country, defender := none, defenderAllies := [] },
        isSelectingAlly)

/-- Run a sequence of clicks; each click carries the `isSelectingAlly` mode bit
in force when it happens (the mode bit itself is toggled freely by the UI
button, so quantifying over it per click covers every reachable interleaving). -/
def runClicks (s : WarState) (clicks : List (Bool × CountryFeature)) : WarState :=
  clicks.foldl (fun st e => (handleCountrySelect e.1 st e.2).1) s

/-- No territory identifier occupies two of the roles
{aggressor, defender, defenderAllies} at once. -/
def wsDisjoint (s : WarState) : Prop :=
  (∀ a, s.aggressor = some a →
    hasId s.defender a.id = false ∧ alliesHas s.defenderAllies a.id = false) ∧
  (∀ d, s.defender = some d → alliesHas s.defenderAllies d.id = false)

lemma hasId_some (x : CountryFeature) (i : Nat) :
    hasId (some x) i = (x.id == i) := rfl

lemma hasId_none_eq (i : Nat) : hasId none i = false := rfl

lemma alliesHas_append (l : List CountryFeature) (c : CountryFeature) (i : Nat) :
    alliesHas (l ++ [c]) i = (alliesHas l i || (c.id == i)) := by
  simp [alliesHas]

lemma alliesHas_filter_ne (l : List CountryFeature) (j i : Nat)
    (h : alliesHas l i = false) :
    alliesHas (l.filter (fun a => a.id != j)) i = false := by
  simp only [alliesHas, List.any_eq_false] at h ⊢
  intro a ha
  exact h a (List.mem_of_mem_filter ha)

lemma select_preserves_disjoint (mode : Bool) (s : WarState) (c : CountryFeature)
    (h : wsDisjoint s) : wsDisjoint (handleCountrySelect mode s c).1 := by
  obtain ⟨h1, h2⟩ := h
  cases mode with
  | true =>
    by_cases hguard : (hasId s.aggressor c.id || hasId s.defender c.id ||
        alliesHas s.defenderAllies c.id) = true
    · have hres : handleCountrySelect true s c = (s, true) := by
        simp [handleCountrySelect, hguard]
      rw [hres]
      exact ⟨h1, h2⟩
    · have hres : handleCountrySelect true s c
          = ({ s with defenderAllies := s.defenderAllies ++ [c] }, false) := by
        simp [handleCountrySelect, hguard]
      rw [hres]
      simp only [Bool.or_eq_true, not_or, Bool.not_eq_true] at hguard
      obtain ⟨⟨hA, hD⟩, hL⟩ := hguard
      refine ⟨fun a ha => ?_, fun d hd => ?_⟩
      · obtain ⟨hd', hl'⟩ := h1 a ha
        refine ⟨hd', ?_⟩
        rw [alliesHas_append, hl', Bool.false_or]
        rw [ha] at hA
        simp only [hasId_some, beq_eq_false_iff_ne, ne_eq] at hA ⊢
        exact fun e => hA e.symm
      · have hl' := h2 d hd
        rw [alliesHas_append, hl', Bool.false_or]
        rw [hd] at hD
        simp only [hasId_some, beq_eq_false_iff_ne, ne_eq] at hD ⊢
        exact fun e => hD e.symm
  | false =>
    by_cases hA : hasId s.aggressor c.id = true
    · -- deselect aggressor
      have hres : handleCountrySelect false s c
          = ({ s with aggressor := none }, false) := by
        simp [handleCountrySelect, hA]
      rw [hres]
      exact ⟨fun a ha => by simp at ha, h2⟩
    by_cases hD : hasId s.defender c.id = true
    · -- deselect defender, clear allies
      have hres : handleCountrySelect false s c
          = ({ s with defender := none, defenderAllies := [] }, false) := by
        simp [handleCountrySelect, hA, hD]
      rw [hres]
      exact ⟨fun a ha => ⟨rfl, rfl⟩, fun d hd => by simp at hd⟩
    by_cases hMem : alliesHas s.defenderAllies c.id = true
    · -- remove an ally
      have hres : handleCountrySelect false s c
          = ({ s with
                defenderAllies :=
                  s.defenderAllies.filter (fun a => a.id != c.id) }, false) := by
        simp [handleCountrySelect, hA, hD, hMem]
      rw [hres]
      refine ⟨fun a ha => ?_, fun d hd => ?_⟩
      · obtain ⟨hd', hl'⟩ := h1 a ha
        exact ⟨hd', alliesHas_filter_ne _ _ _ hl'⟩
      · exact alliesHas_filter_ne _ _ _ (h2 d hd)
    simp only [Bool.not_eq_true] at hA hD hMem
    by_cases hNoA : s.aggressor = none
    · -- fill aggressor
      have hres : handleCountrySelect false s c
          = ({ s with aggressor := some c }, false) := by
        simp [handleCountrySelect, hA, hD, hMem, hNoA, hasId_none_eq]
      rw [hres]
      refine ⟨fun a ha => ?_, h2⟩
      simp only [Option.some.injEq] at ha
      subst ha
      exact ⟨hD, hMem⟩
    by_cases hNoD : s.defender = none
    · -- fill defender
      have hres : handleCountrySelect false s c
          = ({ s with defender := some c }, false) := by
        have : s.aggressor.isNone = false := by
          cases hx : s.aggressor with
          | none => exact absurd hx hNoA
          | some a => rfl
        simp [handleCountrySelect, hA, hD, hMem, hNoD, this, hasId_none_eq]
      rw [hres]
      refine ⟨fun a ha => ?_, fun d hd => ?_⟩
      · obtain ⟨_, hl'⟩ := h1 a ha
        refine ⟨?_, hl'⟩
        rw [ha] at hA
        simp only [hasId_some, beq_eq_false_iff_ne, ne_eq] at hA ⊢
        exact fun e => hA e.symm
      · simp only [Option.some.injEq] at hd
        subst hd
        exact hMem
    · -- reset: new aggressor, everything else cleared
      have hAisNone : s.aggressor.isNone = false := by
        cases hx : s.aggressor with
        | none => exact absurd hx hNoA
        | some a => rfl
      have hDisNone : s.defender.isNone = false := by
        cases hx : s.defender with
        | none => exact absurd hx hNoD
        | some d => rfl
      have hres : handleCountrySelect false s c
          = ({ aggressor := some c, defender := none, defenderAllies := [] },
              false) := by
        simp [handleCountrySelect, hA, hD, hMem, hAisNone, hDisNone]
      rw [hres]
      exact ⟨fun a ha => ⟨rfl, rfl⟩, fun d hd => by simp at hd⟩

/-- C1: for every sequence of click events (each with an arbitrary
ally-selection mode bit), every state reachable from the initial empty
selection keeps the roles aggressor / defender / defenderAllies pairwise
disjoint: no territory identifier appears in more than one role. -/
theorem selection_roles_disjoint (clicks : List (Bool × CountryFeature)) :
    wsDisjoint (runClicks initialWarState clicks) := by
  suffices h : ∀ s, wsDisjoint s → wsDisjoint (runClicks s clicks) by
    refine h initialWarState ?_
    exact ⟨fun a ha => by simp [initialWarState] at ha,
           fun d hd => by simp [initialWarState] at hd⟩
  induction clicks with
  | nil => exact fun s hs => hs
  | cons e rest ih =>
    intro s hs
    exact ih _ (select_preserves_disjoint e.1 s e.2 hs)

/-- C8: with ally-selection mode off, clicking the current aggressor clears
the aggressor slot and leaves everything else unchanged; consequently,
from a state where a territory is unselected in every role and the defender
slot does not match it, clicking it twice in succession returns the
aggressor slot to empty. -/
theorem aggressor_click_toggles (prev : WarState) (c : CountryFeature)
    (hagg : hasId prev.aggressor c.id = true) :
    handleCountrySelect false prev c = ({ prev with aggressor := none }, false) ∧
    (∀ s : WarState, s.aggressor = none → hasId s.defender c.id = false →
      alliesHas s.defenderAllies c.id = false →
      ((handleCountrySelect false
          (handleCountrySelect false s c).1 c).1).aggressor = none) := by
  constructor
  · unfold handleCountrySelect
    simp [hagg]
  · intro s hnone hdef hallies
    have h1 : handleCountrySelect false s c
        = ({ s with aggressor := some c }, false) := by
      simp [handleCountrySelect, hnone, hdef, hallies, hasId_none_eq]
    rw [h1]
    simp [handleCountrySelect, hasId_some]

/-- Witness for `aggressor_click_toggles` at a concrete state. -/
theorem aggressor_click_toggles_witness :
    hasId (some ⟨7, "Altai"⟩ : Option CountryFeature) (7 : Nat) = true ∧
    (handleCountrySelect false
        { aggressor := some ⟨7, "Altai"⟩, defender := none, defenderAllies := [] }
        ⟨7, "Altai"⟩
      = ({ aggressor := none, defender := none, defenderAllies := [] }, false) ∧
    (∀ s : WarState, s.aggressor = none → hasId s.defender (7 : Nat) = false →
      alliesHas s.defenderAllies (7 : Nat) = false →
      ((handleCountrySelect false
          (handleCountrySelect false s ⟨7, "Altai"⟩).1 ⟨7, "Altai"⟩).1).aggressor
        = none)) :=
  ⟨by decide,
    aggressor_click_toggles
      { aggressor := some ⟨7, "Altai"⟩, defender := none, defenderAllies := [] }
      ⟨7, "Altai"⟩ (by decide)⟩

/-- C10: with ally-selection mode off, clicking the current defender (when the
aggressor slot does not match the clicked territory, as selection exclusivity
guarantees) clears the defender slot and the entire ally list in the same
transition, leaving the aggressor slot unchanged. -/
theorem defender_click_clears_allies (prev : WarState) (c : CountryFeature)
    (hagg : hasId prev.aggressor c.id = false)
    (hdef : hasId prev.defender c.id = true) :
    handleCountrySelect false prev c
      = ({ prev with defender := none, defenderAllies := [] }, false) ∧
    (handleCountrySelect false prev c).1.aggressor = prev.aggressor := by
  have h : handleCountrySelect false prev c
      = ({ prev with defender := none, defenderAllies := [] }, false) := by
    unfold handleCountrySelect
    simp [hagg, hdef]
  exact ⟨h, by rw [h]⟩

/-- Witness for `defender_click_clears_allies` at a concrete state. -/
theorem defender_click_clears_allies_witness :
    hasId (some ⟨1, "A"⟩ : Option CountryFeature) (2 : Nat) = false ∧
    hasId (some ⟨2, "B"⟩ : Option CountryFeature) (2 : Nat) = true ∧
    (handleCountrySelect false
        { aggressor := some ⟨1, "A"⟩, defender := some ⟨2, "B"⟩,
          defenderAllies := [⟨3, "C"⟩] } ⟨2, "B"⟩
      = ({ aggressor := some ⟨1, "A"⟩, defender := none, defenderAllies := [] },
          false) ∧
    (handleCountrySelect false
        { aggressor := some ⟨1, "A"⟩, defender := some ⟨2, "B"⟩,
          defenderAllies := [⟨3, "C"⟩] } ⟨2, "B"⟩).1.aggressor
      = some ⟨1, "A"⟩) :=
  ⟨by decide, by decide,
    defender_click_clears_allies
      { aggressor := some ⟨1, "A"⟩, defender := some ⟨2, "B"⟩,
        defenderAllies := [⟨3, "C"⟩] }
      ⟨2, "B"⟩ (by decide) (by decide)⟩

/-!
Rotation and input physics of `HoloGlobe.tsx`: the refs `rotationRef`
(`[spin, tilt]` in degrees), `velocityRef`, `isDraggingRef`, `lastMouseRef`
and `startDragRef` become one state record; `handleMouseDown`,
`handleMouseMove`, mouse-up's drag release, and the physics section at the
top of `render` (lines 495-512) become step functions.
-/

/-- The globe interaction state held in refs by `HoloGlobe`. -/
structure GlobeState where
  rotation0 : ℚ
  rotation1 : ℚ
  velocity0 : ℚ
  velocity1 : ℚ
  isDragging : Bool
  lastX : ℚ
  lastY : ℚ
  startX : ℚ
  startY : ℚ
deriving DecidableEq, Repr

/-- Initial refs: `rotationRef = [0, -20]`, `velocityRef = [0.02, 0]`. -/
def initGlobe : GlobeState :=
  { rotation0 := 0, rotation1 := -20, velocity0 := 1/50, velocity1 := 0,
    isDragging := false, lastX := 0, lastY := 0, startX := 0, startY := 0 }

/-- `handleMouseDown`: start dragging, cancel inertia, record positions. -/
def handleMouseDown (x y : ℚ) (s : GlobeState) : GlobeState :=
  { s with
    isDragging := true, velocity0 := 0, velocity1 := 0,
    lastX := x, lastY := y, startX := x, startY := y }

/-- `handleMouseMove`: while dragging, rotate by half the pointer delta and
record the delta as candidate inertia velocity. -/
def handleMouseMove (x y : ℚ) (s : GlobeState) : GlobeState :=
  if s.isDragging then
    let dx := x - s.lastX
    let dy := y - s.lastY
    { s with
      rotation0 := s.rotation0 + dx * (1/2),
      rotation1 := s.rotation1 - dy * (1/2),
      velocity0 := dx * (1/2),
      velocity1 := -(dy * (1/2)),
      lastX := x, lastY := y }
  else s

/-- The rotation/inertia physics at the top of each `render` frame
(`HoloGlobe.tsx` lines 495-512): only when not dragging, apply friction
`0.92`, ramp the spin velocity back toward the idle rate when it is small,
integrate the velocity into the rotation, and clamp the tilt to
`[-45, 45]`.  While dragging, this whole block is skipped. -/
def framePhysics (s : GlobeState) : GlobeState :=
  if s.isDragging then s
  else
    let v0 := s.velocity0 * (92/100)
    let v1 := s.velocity1 * (92/100)
    let v0' := if |v0| < 1/20 then v0 * (9/10) + (1/20) * (1/10) else v0
    let r0 := s.rotation0 + v0'
    let r1 := s.rotation1 + v1
    let r1' := max (-45) (min 45 r1)
    { s with
      velocity0 := v0', velocity1 := v1, rotation0 := r0, rotation1 := r1' }

/-- The `isDraggingRef.current = false` part of `handleMouseUp` (selection is
modelled separately). -/
def handleMouseUpRot (s : GlobeState) : GlobeState :=
  if s.isDragging then { s with isDragging := false } else s

/-- A pointer or frame event as the globe loop sees it. -/
inductive GlobeEvent where
  | down (x y : ℚ)
  | move (x y : ℚ)
  | frame
  | up
deriving DecidableEq, Repr

def globeStep (s : GlobeState) : GlobeEvent → GlobeState
  | .down x y => handleMouseDown x y s
  | .move x y => handleMouseMove x y s
  | .frame => framePhysics s
  | .up => handleMouseUpRot s

def runGlobe (s : GlobeState) (es : List GlobeEvent) : GlobeState :=
  es.foldl globeStep s

/-- C2 counterexample: the claim "tilt stays within [-45, 45] after every
frame, because tilt is clamped every frame regardless of whether the user is
dragging" is false: the clamp sits inside `if (!isDraggingRef.current)`, so a
frame rendered mid-drag does not clamp.  After pressing at (0,0), moving to
(0,-300) and one animation frame, the tilt is 130°. -/
theorem tilt_not_clamped_while_dragging :
    (runGlobe initGlobe
      [GlobeEvent.down 0 0, GlobeEvent.move 0 (-300), GlobeEvent.frame]).rotation1
        = 130 ∧
    ¬ (-45 ≤ (runGlobe initGlobe
        [GlobeEvent.down 0 0, GlobeEvent.move 0 (-300), GlobeEvent.frame]).rotation1 ∧
      (runGlobe initGlobe
        [GlobeEvent.down 0 0, GlobeEvent.move 0 (-300), GlobeEvent.frame]).rotation1
          ≤ 45) := by
  have h130 : (runGlobe initGlobe
      [GlobeEvent.down 0 0, GlobeEvent.move 0 (-300), GlobeEvent.frame]).rotation1
        = 130 := by
    simp only [runGlobe, List.foldl, globeStep, handleMouseDown, handleMouseMove,
      framePhysics, initGlobe]
    norm_num
  refine ⟨h130, ?_⟩
  rw [h130]
  intro h
  exact absurd h.2 (by norm_num)

/-- C2 amended: after every animation frame executed while the user is not
dragging, the tilt component of the rotation is clamped into [-45°, 45°]
(while dragging, the physics block — clamp included — is skipped). -/
theorem tilt_clamped_when_not_dragging (s : GlobeState)
    (h : s.isDragging = false) :
    -45 ≤ (globeStep s GlobeEvent.frame).rotation1 ∧
      (globeStep s GlobeEvent.frame).rotation1 ≤ 45 := by
  show -45 ≤ (framePhysics s).rotation1 ∧ (framePhysics s).rotation1 ≤ 45
  unfold framePhysics
  rw [if_neg (by simp [h])]
  constructor
  · exact le_max_left _ _
  · exact max_le (by norm_num) (min_le_left _ _)

/-- Witness for `tilt_clamped_when_not_dragging` at the initial state. -/
theorem tilt_clamped_when_not_dragging_witness :
    initGlobe.isDragging = false ∧
    (-45 ≤ (globeStep initGlobe GlobeEvent.frame).rotation1 ∧
      (globeStep initGlobe GlobeEvent.frame).rotation1 ≤ 45) :=
  ⟨rfl, tilt_clamped_when_not_dragging initGlobe rfl⟩


/-!
Missile ("marker") pool and looping progress (`HoloGlobe.tsx` lines 374-380,
471-485, 634-646).  JS `%` is remainder truncated toward zero.
-/

/-- JS `Math.trunc`-style rounding of the quotient, as `%` uses it. -/
def jsTrunc (x : ℚ) : ℤ :=
  if 0 ≤ x then ⌊x⌋ else ⌈x⌉

/-- The JS remainder operator `a % b` (sign follows the dividend). -/
def jsMod (a b : ℚ) : ℚ :=
  a - b * (jsTrunc (a / b) : ℚ)

/-- A pooled missile: `{ t, speed, offset, id, pathIndex }`. -/
structure Missile where
  t : ℚ
  speed : ℚ
  offset : ℚ
  id : Nat
  pathIndex : Nat
deriving DecidableEq, Repr

/-- The per-frame progress update `m.t += m.speed * dt` (line 644): the stored
progress only ever grows. -/
def missileAdvance (dt : ℚ) (m : Missile) : Missile :=
  { m with t := m.t + m.speed * dt }

/-- The derived per-frame cycle position
`const cycleT = (m.t + m.offset) % 1.5` (line 645). -/
def missileCycleT (m : Missile) : ℚ :=
  jsMod (m.t + m.offset) (3/2)

lemma jsTrunc_nonneg (x : ℚ) (h : 0 ≤ x) : jsTrunc x = ⌊x⌋ := by
  simp [jsTrunc, h]

/-- For a nonnegative dividend and positive modulus, the JS remainder lies in
`[0, b)`. -/
lemma jsMod_nonneg_lt (a b : ℚ) (ha : 0 ≤ a) (hb : 0 < b) :
    0 ≤ jsMod a b ∧ jsMod a b < b := by
  have hq : 0 ≤ a / b := div_nonneg ha hb.le
  rw [jsMod, jsTrunc_nonneg _ hq]
  constructor
  · have h1 : (⌊a / b⌋ : ℚ) ≤ a / b := Int.floor_le _
    have h2 : b * (⌊a / b⌋ : ℚ) ≤ b * (a / b) :=
      mul_le_mul_of_nonneg_left h1 hb.le
    rw [mul_div_cancel₀ a hb.ne'] at h2
    linarith
  · have h1 : a / b < (⌊a / b⌋ : ℚ) + 1 := Int.lt_floor_add_one _
    have h2 : b * (a / b) < b * ((⌊a / b⌋ : ℚ) + 1) :=
      (mul_lt_mul_left hb).mpr h1
    rw [mul_div_cancel₀ a hb.ne'] at h2
    nlinarith

/-- C3 counterexample: the claim "after the marker's progress is advanced past
1.5 the stored progress value equals the pre-wrap value modulo 1.5, so stored
progress always lies in [0, 1.5)" is false: `m.t += m.speed * dt` never wraps
the stored value; only the derived local `cycleT` is taken mod 1.5.  A marker
at `t = 1.49` with speed 0.4 advanced by `dt = 0.1` stores `t = 1.53`, not
`1.53 % 1.5 = 0.03`, and `1.53` is outside `[0, 1.5)`. -/
theorem missile_stored_progress_not_wrapped :
    (missileAdvance (1/10) ⟨149/100, 2/5, 0, 0, 0⟩).t = 153/100 ∧
    jsMod ((153 : ℚ)/100) (3/2) = 3/100 ∧
    (missileAdvance (1/10) ⟨149/100, 2/5, 0, 0, 0⟩).t ≠ jsMod ((153 : ℚ)/100) (3/2) ∧
    ¬ ((missileAdvance (1/10) ⟨149/100, 2/5, 0, 0, 0⟩).t < 3/2) := by
  have ht : (missileAdvance (1/10) ⟨149/100, 2/5, 0, 0, 0⟩).t = 153/100 := by
    show (149 : ℚ)/100 + (2/5) * (1/10) = 153/100
    norm_num
  have hmod : jsMod ((153 : ℚ)/100) (3/2) = 3/100 := by
    have hfloor : ⌊((153 : ℚ)/100) / (3/2)⌋ = 1 := by
      rw [Int.floor_eq_iff]
      norm_num
    rw [jsMod, jsTrunc_nonneg _ (by norm_num), hfloor]
    norm_num
  refine ⟨ht, hmod, ?_, ?_⟩
  · rw [ht, hmod]
    norm_num
  · rw [ht]
    norm_num

/-- C3 amended: the stored marker progress is only ever advanced
(`t += speed·dt`), never wrapped; the wrap `(t + offset) % 1.5` is applied to
the derived per-frame cycle position, which does lie in [0, 1.5) whenever the
accumulated progress-plus-offset is nonnegative (it starts in [0,1) and only
grows). -/
theorem missile_progress_wrap_amended (m : Missile) (dt : ℚ)
    (h : 0 ≤ m.t + m.offset) :
    (missileAdvance dt m).t = m.t + m.speed * dt ∧
    0 ≤ missileCycleT m ∧ missileCycleT m < 3/2 := by
  refine ⟨rfl, ?_, ?_⟩
  · exact (jsMod_nonneg_lt _ _ h (by norm_num)).1
  · exact (jsMod_nonneg_lt _ _ h (by norm_num)).2

/-- Witness for `missile_progress_wrap_amended` at a concrete marker. -/
theorem missile_progress_wrap_amended_witness :
    0 ≤ (Missile.mk 0 (1/5) (1/2) 0 0).t + (Missile.mk 0 (1/5) (1/2) 0 0).offset ∧
    ((missileAdvance (1/10) (Missile.mk 0 (1/5) (1/2) 0 0)).t
        = (Missile.mk 0 (1/5) (1/2) 0 0).t + (Missile.mk 0 (1/5) (1/2) 0 0).speed * (1/10) ∧
      0 ≤ missileCycleT (Missile.mk 0 (1/5) (1/2) 0 0) ∧
      missileCycleT (Missile.mk 0 (1/5) (1/2) 0 0) < 3/2) :=
  ⟨by show (0:ℚ) ≤ 0 + 1/2; norm_num,
    missile_progress_wrap_amended (Missile.mk 0 (1/5) (1/2) 0 0) (1/10)
      (by show (0:ℚ) ≤ 0 + 1/2; norm_num)⟩

/-!
Conflict-path derivation (`HoloGlobe.tsx` lines 593-618): run per frame when
an aggressor, a defender and the simulating flag are all set.  `d3.geoCentroid`
is an external library call, abstracted as a `centroid` parameter.
-/

inductive PathType where
  | AGGRESSION
  | COUNTER_ATTACK
deriving DecidableEq, Repr

/-- `ConflictPath { start, end, color, type }` (the `end` field is named
`end_` because `end` is a Lean keyword). -/
structure ConflictPath where
  start : ℚ × ℚ
  end_ : ℚ × ℚ
  color : String
  type : PathType
deriving DecidableEq, Repr

/-- The path list derived each frame: one primary aggression path
aggressor→defender, then one counter-attack path per ally, ally→aggressor
(lines 593-618); empty when no conflict is active. -/
def computeConflictPaths (centroid : CountryFeature → ℚ × ℚ)
    (ws : WarState) (isSimulating : Bool) : List ConflictPath :=
  match ws.aggressor, ws.defender with
  | some agg, some dfd =>
    if isSimulating then
      { start := centroid agg, end_ := centroid dfd,
        color := "#f97316", type := PathType.AGGRESSION } ::
      ws.defenderAllies.map (fun ally =>
        { start := centroid ally, end_ := centroid agg,
          color := "#22d3ee", type := PathType.COUNTER_ATTACK })
    else []
  | _, _ => []

/-- C5: with an aggressor, a defender and N allies selected and a simulation
active, the derived path list for the frame has exactly 1+N entries: first the
aggression path from the aggressor's centroid to the defender's centroid, then
one counter-attack path per ally from that ally's centroid back to the
aggressor's centroid, in ally order. -/
theorem conflict_paths_shape (centroid : CountryFeature → ℚ × ℚ)
    (ws : WarState) (agg dfd : CountryFeature)
    (ha : ws.aggressor = some agg) (hd : ws.defender = some dfd) :
    (computeConflictPaths centroid ws true).length
        = 1 + ws.defenderAllies.length ∧
    (computeConflictPaths centroid ws true).head?
        = some { start := centroid agg, end_ := centroid dfd,
                 color := "#f97316", type := PathType.AGGRESSION } ∧
    (computeConflictPaths centroid ws true).tail
        = ws.defenderAllies.map (fun ally =>
            { start := centroid ally, end_ := centroid agg,
              color := "#22d3ee", type := PathType.COUNTER_ATTACK }) := by
  have hres : computeConflictPaths centroid ws true
      = { start := centroid agg, end_ := centroid dfd,
          color := "#f97316", type := PathType.AGGRESSION } ::
        ws.defenderAllies.map (fun ally =>
          { start := centroid ally, end_ := centroid agg,
            color := "#22d3ee", type := PathType.COUNTER_ATTACK }) := by
    unfold computeConflictPaths
    rw [ha, hd]
    simp
  rw [hres]
  refine ⟨?_, rfl, rfl⟩
  simp [Nat.add_comm]

/-- Witness for `conflict_paths_shape` with one ally. -/
theorem conflict_paths_shape_witness :
    (WarState.mk (some ⟨1, "A"⟩) (some ⟨2, "B"⟩) [⟨3, "C"⟩]).aggressor
        = some ⟨1, "A"⟩ ∧
    (WarState.mk (some ⟨1, "A"⟩) (some ⟨2, "B"⟩) [⟨3, "C"⟩]).defender
        = some ⟨2, "B"⟩ ∧
    ((computeConflictPaths (fun c => ((c.id : ℚ), 0))
        (WarState.mk (some ⟨1, "A"⟩) (some ⟨2, "B"⟩) [⟨3, "C"⟩]) true).length
        = 1 + (WarState.mk (some ⟨1, "A"⟩) (some ⟨2, "B"⟩) [⟨3, "C"⟩]).defenderAllies.length ∧
      (computeConflictPaths (fun c => ((c.id : ℚ), 0))
        (WarState.mk (some ⟨1, "A"⟩) (some ⟨2, "B"⟩) [⟨3, "C"⟩]) true).head?
        = some { start := ((fun c : CountryFeature => ((c.id : ℚ), (0:ℚ))) ⟨1, "A"⟩),
                 end_ := ((fun c : CountryFeature => ((c.id : ℚ), (0:ℚ))) ⟨2, "B"⟩),
                 color := "#f97316", type := PathType.AGGRESSION } ∧
      (computeConflictPaths (fun c => ((c.id : ℚ), 0))
        (WarState.mk (some ⟨1, "A"⟩) (some ⟨2, "B"⟩) [⟨3, "C"⟩]) true).tail
        = (WarState.mk (some ⟨1, "A"⟩) (some ⟨2, "B"⟩) [⟨3, "C"⟩]).defenderAllies.map
            (fun ally =>
              { start := ((fun c : CountryFeature => ((c.id : ℚ), (0:ℚ))) ally),
                end_ := ((fun c : CountryFeature => ((c.id : ℚ), (0:ℚ))) ⟨1, "A"⟩),
                color := "#22d3ee", type := PathType.COUNTER_ATTACK })) :=
  ⟨rfl, rfl,
    conflict_paths_shape (fun c => ((c.id : ℚ), 0))
      (WarState.mk (some ⟨1, "A"⟩) (some ⟨2, "B"⟩) [⟨3, "C"⟩])
      ⟨1, "A"⟩ ⟨2, "B"⟩ rfl rfl⟩

/-!
Particle system (`HoloGlobe.tsx` lines 363-372, 708-743): each frame every
particle's life is decremented by `dt * 1.5`, its position integrates its
velocity, and particles whose life has reached ≤ 0 are spliced out of the
list (the backward `for` loop with `splice` removes exactly those, keeping
the order of the survivors).
-/

structure Particle where
  x : ℚ
  y : ℚ
  vx : ℚ
  vy : ℚ
  life : ℚ
  maxLife : ℚ
  size : ℚ
  color : String
deriving DecidableEq, Repr

/-- One frame's update of a single particle:
`p.life -= dt * 1.5; p.x += p.vx * dt; p.y += p.vy * dt`. -/
def particleStep (dt : ℚ) (p : Particle) : Particle :=
  { p with
    life := p.life - dt * (3/2),
    x := p.x + p.vx * dt,
    y := p.y + p.vy * dt }

/-- One frame's update of the particle list: update each particle and drop
those whose life is now ≤ 0 (the `splice` in the backward loop). -/
def particlesStep (dt : ℚ) : List Particle → List Particle
  | [] => []
  | p :: ps =>
    let q := particleStep dt p
    if q.life ≤ 0 then particlesStep dt ps
    else q :: particlesStep dt ps

/-- `n` frames of the particle system. -/
def particlesIter (dt : ℚ) : Nat → List Particle → List Particle
  | 0, ps => ps
  | n + 1, ps => particlesStep dt (particlesIter dt n ps)

lemma particlesStep_nil (dt : ℚ) : particlesStep dt [] = [] := rfl

lemma particlesStep_singleton (dt : ℚ) (p : Particle) :
    particlesStep dt [p]
      = if (particleStep dt p).life ≤ 0 then [] else [particleStep dt p] := by
  simp [particlesStep]

lemma particlesIter_nil (dt : ℚ) (n : Nat) : particlesIter dt n [] = [] := by
  induction n with
  | zero => rfl
  | succ n ih =>
    show particlesStep dt (particlesIter dt n []) = []
    rw [ih]
    exact particlesStep_nil dt

lemma particlesIter_add (dt : ℚ) (a b : Nat) (ps : List Particle) :
    particlesIter dt (a + b) ps = particlesIter dt a (particlesIter dt b ps) := by
  induction a with
  | zero => simp [particlesIter]
  | succ a ih =>
    have : a + 1 + b = (a + b) + 1 := by omega
    rw [this]
    simp only [particlesIter, ih]

lemma single_particle_alive (dt : ℚ) (p : Particle) (hlife : p.life = 1)
    (k : Nat) (hk : (k : ℚ) * (dt * (3/2)) < 1) :
    ∃ q : Particle, particlesIter dt k [p] = [q]
      ∧ q.life = 1 - (k : ℚ) * (dt * (3/2)) := by
  induction k with
  | zero =>
    exact ⟨p, rfl, by rw [hlife]; norm_num⟩
  | succ k ih =>
    have hdt32 : (0:ℚ) ≤ dt * (3/2) ∨ dt * (3/2) < 0 := le_or_lt 0 _
    have hk' : (k : ℚ) * (dt * (3/2)) < 1 := by
      rcases hdt32 with h | h
      · have : (k : ℚ) * (dt * (3/2)) ≤ ((k : ℚ) + 1) * (dt * (3/2)) := by
          nlinarith [Nat.cast_nonneg (α := ℚ) k]
        push_cast at hk
        linarith
      · nlinarith [Nat.cast_nonneg (α := ℚ) k, hk]
    obtain ⟨q, hq, hlq⟩ := ih hk'
    have hnewlife : (particleStep dt q).life = 1 - ((k : ℚ) + 1) * (dt * (3/2)) := by
      show q.life - dt * (3/2) = _
      rw [hlq]; ring
    have hpos : ¬ (particleStep dt q).life ≤ 0 := by
      rw [hnewlife]
      push_cast at hk
      intro hcon
      linarith
    refine ⟨particleStep dt q, ?_, by rw [hnewlife]; push_cast; ring⟩
    show particlesStep dt (particlesIter dt k [p]) = _
    rw [hq, particlesStep_singleton, if_neg hpos]

/-- C6: a particle created with `life = 1.0` and decay rate `r = 1.5`, stepped
with fixed time step `dt` (`p.life -= dt * 1.5` each frame), stays in the list
with life `1 - k·(1.5·dt) > 0` for every frame count `k < ⌈1/(1.5·dt)⌉`, is
removed from the list exactly at frame `⌈1/(1.5·dt)⌉` (the frame where its
life first reaches ≤ 0), and the list stays empty ever after. -/
theorem particle_lifecycle (p : Particle) (dt : ℚ) (hdt : 0 < dt)
    (hlife : p.life = 1) :
    (∀ k, k < (⌈(1:ℚ) / (dt * (3/2))⌉).toNat →
      ∃ q : Particle, particlesIter dt k [p] = [q]
        ∧ q.life = 1 - (k : ℚ) * (dt * (3/2)) ∧ 0 < q.life) ∧
    (∀ m, (⌈(1:ℚ) / (dt * (3/2))⌉).toNat ≤ m → particlesIter dt m [p] = []) := by
  have hc : (0:ℚ) < dt * (3/2) := by linarith
  have hinv : (0:ℚ) < 1 / (dt * (3/2)) := by positivity
  have hceilpos : 0 < ⌈(1:ℚ) / (dt * (3/2))⌉ := Int.ceil_pos.mpr hinv
  have hcast : ((⌈(1:ℚ) / (dt * (3/2))⌉.toNat : ℤ)) = ⌈(1:ℚ) / (dt * (3/2))⌉ :=
    Int.toNat_of_nonneg hceilpos.le
  have halive : ∀ k, k < ⌈(1:ℚ) / (dt * (3/2))⌉.toNat →
      ∃ q : Particle, particlesIter dt k [p] = [q]
        ∧ q.life = 1 - (k : ℚ) * (dt * (3/2)) ∧ 0 < q.life := by
    intro k hk
    have hkc : (k : ℚ) * (dt * (3/2)) < 1 := by
      have hz : (k : ℤ) < ⌈(1:ℚ) / (dt * (3/2))⌉ := by
        omega
      have hq : (k : ℚ) < 1 / (dt * (3/2)) := by
        have := Int.lt_ceil.mp hz
        push_cast at this
        exact this
      calc (k : ℚ) * (dt * (3/2)) < (1 / (dt * (3/2))) * (dt * (3/2)) := by
            exact (mul_lt_mul_right hc).mpr hq
        _ = 1 := by field_simp
    obtain ⟨q, hq, hlq⟩ := single_particle_alive dt p hlife k hkc
    exact ⟨q, hq, hlq, by rw [hlq]; linarith⟩
  refine ⟨halive, ?_⟩
  have hdead : particlesIter dt (⌈(1:ℚ) / (dt * (3/2))⌉.toNat) [p] = [] := by
    obtain ⟨n, hn⟩ : ∃ n, ⌈(1:ℚ) / (dt * (3/2))⌉.toNat = n + 1 := by
      refine ⟨⌈(1:ℚ) / (dt * (3/2))⌉.toNat - 1, ?_⟩
      omega
    obtain ⟨q, hq, hlq, _⟩ := halive n (by omega)
    have hstep : particlesIter dt (n + 1) [p]
        = particlesStep dt (particlesIter dt n [p]) := rfl
    have hnc : (1:ℚ) ≤ ((n : ℚ) + 1) * (dt * (3/2)) := by
      have hle : (1:ℚ) / (dt * (3/2)) ≤ ((⌈(1:ℚ) / (dt * (3/2))⌉ : ℚ)) :=
        Int.le_ceil _
      have hnn : ((⌈(1:ℚ) / (dt * (3/2))⌉ : ℚ)) = (n : ℚ) + 1 := by
        have : (⌈(1:ℚ) / (dt * (3/2))⌉ : ℤ) = (n : ℤ) + 1 := by omega
        exact_mod_cast congrArg (fun z : ℤ => (z : ℚ)) this
      rw [hnn] at hle
      calc (1:ℚ) = (1 / (dt * (3/2))) * (dt * (3/2)) := by field_simp
        _ ≤ ((n : ℚ) + 1) * (dt * (3/2)) := by
            exact (mul_le_mul_right hc).mpr hle
    have hdeadlife : (particleStep dt q).life ≤ 0 := by
      show q.life - dt * (3/2) ≤ 0
      rw [hlq]
      linarith
    rw [hn, hstep, hq, particlesStep_singleton, if_pos hdeadlife]
  intro m hm
  have hsplit : m = (m - ⌈(1:ℚ) / (dt * (3/2))⌉.toNat)
      + ⌈(1:ℚ) / (dt * (3/2))⌉.toNat := by omega
  rw [hsplit, particlesIter_add, hdead, particlesIter_nil]

/-- Witness for `particle_lifecycle` at `dt = 1/10` (so `⌈1/0.15⌉ = 7`). -/
theorem particle_lifecycle_witness :
    (0:ℚ) < 1/10 ∧
    (Particle.mk 0 0 2 3 1 1 5 "#f97316").life = 1 ∧
    ((∀ k, k < (⌈(1:ℚ) / ((1/10) * (3/2))⌉).toNat →
      ∃ q : Particle,
        particlesIter (1/10) k [Particle.mk 0 0 2 3 1 1 5 "#f97316"] = [q]
          ∧ q.life = 1 - (k : ℚ) * ((1/10) * (3/2)) ∧ 0 < q.life) ∧
    (∀ m, (⌈(1:ℚ) / ((1/10) * (3/2))⌉).toNat ≤ m →
      particlesIter (1/10) m [Particle.mk 0 0 2 3 1 1 5 "#f97316"] = [])) :=
  ⟨by norm_num, rfl,
    particle_lifecycle (Particle.mk 0 0 2 3 1 1 5 "#f97316") (1/10)
      (by norm_num) rfl⟩

/-!
Click vs. drag disambiguation and hit-testing (`HoloGlobe.tsx` lines
784-814).  The code computes
`dist = Math.sqrt((ux-sx)^2 + (uy-sy)^2)` and treats the gesture as a click
iff `dist < 15`; over nonnegative reals that comparison is equivalent to
comparing the squared distance with `15^2 = 225`, which is how it is embedded
over `ℚ` (`Real.sqrt` appears in the theorem to tie the embedding back to the
Euclidean distance the source computes).  `projection.invert` and
`d3.geoContains` are external library calls, abstracted as an
`Option (ℚ × ℚ)` argument and a `contains` predicate. -/

/-- The squared pointer travel between mouse-down and mouse-up. -/
def dragDistSq (sx sy ux uy : ℚ) : ℚ :=
  (ux - sx)^2 + (uy - sy)^2

/-- Click detection `dist < 15`, expressed on the squared distance. -/
def isClick (sx sy ux uy : ℚ) : Bool :=
  dragDistSq sx sy ux uy < 225

/-- `worldData.features.find(f => d3.geoContains(f, inverted))`. -/
def hitTest (features : List CountryFeature)
    (contains : CountryFeature → ℚ × ℚ → Bool) (pt : ℚ × ℚ) :
    Option CountryFeature :=
  features.find? (fun f => contains f pt)

/-- The selection part of `handleMouseUp`: when the gesture is a click and the
screen point inverts onto the globe, hit-test the features and pass the first
match to `onCountrySelect` (here: `handleCountrySelect`); otherwise leave the
selection state untouched. -/
def mouseUpSelect (features : List CountryFeature)
    (contains : CountryFeature → ℚ × ℚ → Bool)
    (sx sy ux uy : ℚ) (inverted : Option (ℚ × ℚ))
    (mode : Bool) (prev : WarState) : WarState × Bool :=
  if isClick sx sy ux uy then
    match inverted with
    | some pt =>
      match hitTest features contains pt with
      | some c => handleCountrySelect mode prev c
      | none => (prev, mode)
    | none => (prev, mode)
  else (prev, mode)

/-- C7: a pointer-down/up pair is classified as a click exactly when the
Euclidean pixel distance between the two positions is strictly below 15;
in particular travel 14 is a click, travel 15 is not, and travel 16 is a
drag with no selection effect. -/
theorem click_drag_threshold :
    (∀ sx sy ux uy : ℚ,
      isClick sx sy ux uy = true ↔
        Real.sqrt (((ux : ℝ) - (sx : ℝ))^2 + ((uy : ℝ) - (sy : ℝ))^2) < 15) ∧
    isClick 0 0 14 0 = true ∧
    isClick 0 0 9 12 = false ∧
    isClick 0 0 16 0 = false ∧
    (∀ (features : List CountryFeature)
        (contains : CountryFeature → ℚ × ℚ → Bool)
        (inverted : Option (ℚ × ℚ)) (mode : Bool) (prev : WarState),
      mouseUpSelect features contains 0 0 16 0 inverted mode prev
        = (prev, mode)) := by
  have hiff : ∀ sx sy ux uy : ℚ,
      isClick sx sy ux uy = true ↔
        Real.sqrt (((ux : ℝ) - (sx : ℝ))^2 + ((uy : ℝ) - (sy : ℝ))^2) < 15 := by
    intro sx sy ux uy
    rw [Real.sqrt_lt' (by norm_num : (0:ℝ) < 15)]
    have hcast : (((ux - sx)^2 + (uy - sy)^2 : ℚ) : ℝ)
        = ((ux : ℝ) - (sx : ℝ))^2 + ((uy : ℝ) - (sy : ℝ))^2 := by
      push_cast
      ring
    constructor
    · intro h
      have hq : ((ux - sx)^2 + (uy - sy)^2 : ℚ) < 225 := by
        simpa [isClick, dragDistSq, decide_eq_true_eq] using h
      have := (Rat.cast_lt (K := ℝ)).mpr hq
      rw [hcast] at this
      norm_num at this ⊢
      convert this using 2
    · intro h
      have h' : (((ux - sx)^2 + (uy - sy)^2 : ℚ) : ℝ) < ((225 : ℚ) : ℝ) := by
        rw [hcast]
        norm_num at h ⊢
        convert h using 2
      have hq := (Rat.cast_lt (K := ℝ)).mp h'
      simpa [isClick, dragDistSq, decide_eq_true_eq] using hq
  have h14 : isClick 0 0 14 0 = true := by
    simp only [isClick, dragDistSq, decide_eq_true_eq]
    norm_num
  have h15 : isClick 0 0 9 12 = false := by
    simp only [isClick, dragDistSq]
    norm_num
  have h16 : isClick 0 0 16 0 = false := by
    simp only [isClick, dragDistSq]
    norm_num
  refine ⟨hiff, h14, h15, h16, ?_⟩
  intro features contains inverted mode prev
  simp [mouseUpSelect, h16]

lemma hitTest_eq_some_iff (features : List CountryFeature)
    (contains : CountryFeature → ℚ × ℚ → Bool) (pt : ℚ × ℚ)
    (f : CountryFeature) :
    hitTest features contains pt = some f ↔
      ∃ l1 l2, features = l1 ++ f :: l2 ∧
        (∀ g ∈ l1, contains g pt = false) ∧ contains f pt = true := by
  induction features with
  | nil =>
    constructor
    · intro h
      simp [hitTest] at h
    · rintro ⟨l1, l2, habs, -, -⟩
      exact absurd habs (by simp)
  | cons a rest ih =>
    constructor
    · intro h
      by_cases hc : contains a pt = true
      · have : hitTest (a :: rest) contains pt = some a := by
          simp [hitTest, List.find?, hc]
        rw [this] at h
        obtain rfl : a = f := by simpa using h
        exact ⟨[], rest, rfl, by simp, hc⟩
      · have hrest : hitTest (a :: rest) contains pt
            = hitTest rest contains pt := by
          simp only [hitTest, List.find?]
          rw [Bool.not_eq_true] at hc
          rw [hc]
        rw [hrest] at h
        obtain ⟨l1, l2, hsplit, hmiss, hf⟩ := ih.mp h
        refine ⟨a :: l1, l2, by rw [hsplit]; simp, ?_, hf⟩
        intro g hg
        rcases List.mem_cons.mp hg with rfl | hg'
        · exact Bool.not_eq_true _ |>.mp hc
        · exact hmiss g hg'
    · rintro ⟨l1, l2, hsplit, hmiss, hf⟩
      cases l1 with
      | nil =>
        simp only [List.nil_append] at hsplit
        obtain ⟨rfl, rfl⟩ : a = f ∧ rest = l2 := by
          constructor <;> [exact (List.cons.injEq _ _ _ _ ▸ hsplit).1;
            exact (List.cons.injEq _ _ _ _ ▸ hsplit).2]
        simp [hitTest, List.find?, hf]
      | cons b l1' =>
        simp only [List.cons_append, List.cons.injEq] at hsplit
        obtain ⟨rfl, hrest⟩ := hsplit
        have hb : contains a pt = false := hmiss a (List.mem_cons_self a l1')
        have : hitTest (a :: rest) contains pt = hitTest rest contains pt := by
          simp only [hitTest, List.find?]
          rw [hb]
        rw [this]
        exact ih.mpr ⟨l1', l2, hrest,
          fun g hg => hmiss g (List.mem_cons_of_mem _ hg), hf⟩

/-- C9: for a click whose screen coordinate inverts to a point, hit-testing
returns the first feature in polygon-list order that contains the point, and
the selection callback runs with exactly that feature; a miss
(ocean/background: no feature contains the point) leaves the selection state
and mode unchanged. -/
theorem hit_test_first_match_or_noop (features : List CountryFeature)
    (contains : CountryFeature → ℚ × ℚ → Bool) (pt : ℚ × ℚ)
    (sx sy ux uy : ℚ) (mode : Bool) (prev : WarState)
    (hclick : isClick sx sy ux uy = true) :
    (∀ f, hitTest features contains pt = some f ↔
      ∃ l1 l2, features = l1 ++ f :: l2 ∧
        (∀ g ∈ l1, contains g pt = false) ∧ contains f pt = true) ∧
    (∀ f, hitTest features contains pt = some f →
      mouseUpSelect features contains sx sy ux uy (some pt) mode prev
        = handleCountrySelect mode prev f) ∧
    ((∀ g ∈ features, contains g pt = false) →
      hitTest features contains pt = none ∧
      mouseUpSelect features contains sx sy ux uy (some pt) mode prev
        = (prev, mode)) := by
  refine ⟨fun f => hitTest_eq_some_iff features contains pt f, ?_, ?_⟩
  · intro f hf
    simp only [mouseUpSelect, hclick, if_true, hf]
  · intro hmiss
    have hnone : hitTest features contains pt = none := by
      simp only [hitTest, List.find?_eq_none]
      intro g hg
      rw [hmiss g hg]
      simp
    refine ⟨hnone, ?_⟩
    simp only [mouseUpSelect, hclick, if_true, hnone]

/-- Witness for `hit_test_first_match_or_noop`: two features of which the
second contains the point; the hit-test returns it and the callback input
matches. -/
theorem hit_test_first_match_or_noop_witness :
    isClick 0 0 14 0 = true ∧
    ((∀ f, hitTest [⟨1, "A"⟩, ⟨2, "B"⟩] (fun c _ => c.id == 2) (0, 0) = some f ↔
      ∃ l1 l2, ([⟨1, "A"⟩, ⟨2, "B"⟩] : List CountryFeature) = l1 ++ f :: l2 ∧
        (∀ g ∈ l1, (fun (c : CountryFeature) (_ : ℚ × ℚ) => c.id == 2) g (0, 0) = false) ∧
        (fun (c : CountryFeature) (_ : ℚ × ℚ) => c.id == 2) f (0, 0) = true) ∧
    (∀ f, hitTest [⟨1, "A"⟩, ⟨2, "B"⟩] (fun c _ => c.id == 2) (0, 0) = some f →
      mouseUpSelect [⟨1, "A"⟩, ⟨2, "B"⟩] (fun c _ => c.id == 2) 0 0 14 0
          (some (0, 0)) false initialWarState
        = handleCountrySelect false initialWarState f) ∧
    ((∀ g ∈ ([⟨1, "A"⟩, ⟨2, "B"⟩] : List CountryFeature),
        (fun (c : CountryFeature) (_ : ℚ × ℚ) => c.id == 2) g (0, 0) = false) →
      hitTest [⟨1, "A"⟩, ⟨2, "B"⟩] (fun c _ => c.id == 2) (0, 0) = none ∧
      mouseUpSelect [⟨1, "A"⟩, ⟨2, "B"⟩] (fun c _ => c.id == 2) 0 0 14 0
          (some (0, 0)) false initialWarState
        = (initialWarState, false))) :=
  ⟨by simp only [isClick, dragDistSq, decide_eq_true_eq]; norm_num,
    hit_test_first_match_or_noop [⟨1, "A"⟩, ⟨2, "B"⟩] (fun c _ => c.id == 2)
      (0, 0) 0 0 14 0 false initialWarState
      (by simp only [isClick, dragDistSq, decide_eq_true_eq]; norm_num)⟩

/-!
Procedural fallback battle-log generator (`geminiService.ts` lines 70-147).
`Math.imul` and `| 0` are 32-bit signed operations, modelled on `ℤ` with
explicit wrapping; `charCodeAt` is the character code (identical to the code
point for the ASCII names used here).  The generator consumes four
`Math.random()` draws — winner roll, event index roll, battle-type index
roll, win-probability roll, in call order — which are made explicit as a
`RandDraws` record (each drawn from [0, 1) at runtime; the list lookups use
the JS out-of-range marker `"undefined"` as default, unreachable for rolls
in [0, 1)).  JS `.trim()` and `.toLowerCase()` are modelled directly on the
character list (they agree with the JS semantics on the ASCII/newline
content produced here).
-/

/-- `| 0`: wrap to a signed 32-bit integer. -/
def toInt32 (x : ℤ) : ℤ :=
  (x + 2147483648) % 4294967296 - 2147483648

/-- `Math.imul`: 32-bit signed multiplication. -/
def imul (a b : ℤ) : ℤ :=
  toInt32 (a * b)

/-- The hash loop
`for (i...) h = Math.imul(31, h) + name.charCodeAt(i) | 0` of
`getPowerScore`. -/
def hashName (name : String) : ℤ :=
  name.data.foldl (fun h c => toInt32 (imul 31 h + (c.toNat : ℤ))) 0

/-- `getPowerScore` from `geminiService.ts` (lines 73-83): seeded unit stats
plus a weighted tech score (`>> k` on the nonnegative seed is division by
`2^k`). -/
def getPowerScore (name : String) : ℤ :=
  let seed := |hashName name|
  let infantry := 40 + seed % 60
  let armor := 40 + (seed / 4) % 60
  let air := 40 + (seed / 16) % 60
  let tech := 1 + seed % 10
  infantry + armor + air + tech * 10

def EXTERNAL_EVENTS : List String :=
  ["Neighboring nations impose a strict trade embargo, stifling supply lines.",
   "Orbital blockade established by the Lunar Defense Force.",
   "Neutral neighboring states mobilize borders to contain the conflict.",
   "UN Peacekeeping drone squadrons deployed to protect civilian sectors.",
   "Cyber-attack from a rogue third-party state blacks out the region.",
   "Mercenary fleets from the Outer Rim join the aggressor's vanguard.",
   "Global trade routes diverted, causing economic collapse in the defender's rear guard."]

def BATTLE_TYPES : List String :=
  ["Orbital Bombardment",
   "Cyber-Kinetic Hybrid Assault",
   "Amphibious Landing",
   "Guerrilla Drone Warfare",
   "High-Altitude Air Superiority",
   "Mech-Infantry Blitzkrieg"]

/-- ASCII lowercasing of one character (JS `toLowerCase` on the ASCII
range). -/
def asciiToLower (c : Char) : Char :=
  if c.isUpper then Char.ofNat (c.toNat + 32) else c

/-- JS `String.prototype.toLowerCase` on the ASCII content used here. -/
def jsToLowerCase (s : String) : String :=
  ⟨s.data.map asciiToLower⟩

/-- JS `String.prototype.trim`: strip leading and trailing whitespace. -/
def jsTrim (s : String) : String :=
  ⟨((s.data.dropWhile Char.isWhitespace).reverse.dropWhile
      Char.isWhitespace).reverse⟩

/-- The four `Math.random()` draws `generateMockWarLog` consumes, in call
order. -/
structure RandDraws where
  winnerRoll : ℚ
  eventRoll : ℚ
  battleRoll : ℚ
  probRoll : ℚ
deriving DecidableEq, Repr

/-- The report template literal of `generateMockWarLog` (lines 126-146),
assembled line by line (trailing spaces included), then trimmed. -/
def mockWarLogText (countryA countryB : String) (allies : List String)
    (winner loser event battleType : String) (isCloseMatch : Bool)
    (winProb : ℤ) : String :=
  let alliesJoined := String.intercalate ", " allies
  let scenarioAllies := if allies.length > 0 then s!"(+ {alliesJoined})" else ""
  let matchLine :=
    if isCloseMatch then "Forces are evenly matched in initial skirmishes."
    else s!"{winner} demonstrates immediate tactical superiority."
  let allyLine :=
    if allies.length > 0 then
      s!"The intervention of {alliesJoined} has significantly altered the battlefield dynamics."
    else ""
  let battleLower := jsToLowerCase battleType
  jsTrim ("\n"
    ++ "*** SIMULATION REPORT (OFFLINE PROTOCOL) ***\n"
    ++ s!"SCENARIO: {countryA} vs {countryB} {scenarioAllies}\n"
    ++ "\n"
    ++ "1. THEATER OF WAR:\n"
    ++ s!"Conflict escalates into a {battleType}. \n"
    ++ matchLine ++ "\n"
    ++ allyLine ++ "\n"
    ++ "\n"
    ++ "2. EXTERNAL INFLUENCE:\n"
    ++ event ++ "\n"
    ++ "\n"
    ++ "3. TACTICAL ANALYSIS:\n"
    ++ s!"{winner} effectively counters {loser}'s defenses using advanced {battleLower} tactics. \n"
    ++ s!"{loser} attempts asymmetric countermeasures but sustains heavy infrastructure damage.\n"
    ++ "\n"
    ++ "4. PREDICTED OUTCOME:\n"
    ++ s!"VICTORY: {winner}\n"
    ++ s!"CONFIDENCE: {winProb}%\n"
    ++ s!"{loser} is forced to retreat to secondary defensive lines.\n  ")

/-- `generateMockWarLog` (lines 104-147): power scores, ally bonus at 50%
impact, probabilistic winner weighted by the stats, random external event,
battle type and confidence, then the report template. -/
def generateMockWarLog (countryA countryB : String) (allies : List String)
    (r : RandDraws) : String :=
  let scoreA := getPowerScore countryA
  let scoreB := getPowerScore countryB
  let alliesScore : ℚ :=
    allies.foldl (fun acc ally => acc + (getPowerScore ally : ℚ) * (1/2)) 0
  let total : ℚ := (scoreA : ℚ) + (scoreB : ℚ) + alliesScore
  let chanceA : ℚ := if total = 0 then 1/2 else (scoreA : ℚ) / total
  let winner := if r.winnerRoll < chanceA then countryA else countryB
  let loser := if winner = countryA then countryB else countryA
  let isCloseMatch : Bool :=
    if |chanceA - (1/2 : ℚ)| < (1/10 : ℚ) then true else false
  let event := EXTERNAL_EVENTS.getD (⌊r.eventRoll * 7⌋).toNat "undefined"
  let battleType := BATTLE_TYPES.getD (⌊r.battleRoll * 6⌋).toNat "undefined"
  let winProb : ℤ := ⌊(55 : ℚ) + r.probRoll * 40⌋
  mockWarLogText countryA countryB allies winner loser event battleType
    isCloseMatch winProb

set_option maxRecDepth 100000 in
/-- C4 counterexample: the fallback generator is NOT deterministic in its
arguments alone: the winner is drawn with `Math.random()` (the code's own
comment calls it "probabilistic but weighted by stats").  With the same
country names "A" and "B" and no allies, a winner roll of 0 yields a report
naming A the victor while a winner roll of 0.9 names B
(`chanceA = 205/421 ≈ 0.487`), so two invocations with the same arguments
can produce different narrative text. -/
theorem mock_war_log_not_deterministic :
    generateMockWarLog "A" "B" [] ⟨0, 0, 0, 0⟩
      ≠ generateMockWarLog "A" "B" [] ⟨9/10, 0, 0, 0⟩ := by
  have hsA : getPowerScore "A" = 205 := by decide
  have hsB : getPowerScore "B" = 216 := by decide
  simp only [generateMockWarLog, hsA, hsB, List.foldl]
  norm_num
  rw [show (decide (|(11:ℚ)/842| < 1/10)) = true from by
    rw [decide_eq_true_eq, abs_of_nonneg (by norm_num : (0:ℚ) ≤ 11/842)]
    norm_num]
  decide

/-- C4 amended: the fallback generator is deterministic as a function of the
country names, the ally list and the four pseudo-random draws it consumes:
two invocations with the same arguments and the same draws produce the same
narrative text (the randomness of `Math.random()` is the only source of
variation). -/
theorem mock_war_log_deterministic (countryA countryB : String)
    (allies : List String) (r r' : RandDraws) (h : r = r') :
    generateMockWarLog countryA countryB allies r
      = generateMockWarLog countryA countryB allies r' := by
  rw [h]

/-- Witness for `mock_war_log_deterministic` at concrete arguments. -/
theorem mock_war_log_deterministic_witness :
    (RandDraws.mk 0 0 0 0) = (RandDraws.mk 0 0 0 0) ∧
    generateMockWarLog "A" "B" ["C"] (RandDraws.mk 0 0 0 0)
      = generateMockWarLog "A" "B" ["C"] (RandDraws.mk 0 0 0 0) :=
  ⟨rfl, mock_war_log_deterministic "A" "B" ["C"]
    (RandDraws.mk 0 0 0 0) (RandDraws.mk 0 0 0 0) rfl⟩
